import Mathlib

/-!
Shallow embedding of the mbox-to-sqlite normalization and ingestion pipeline
(`src/mbox_message.py`, `src/mbox_database.py`, `src/main.py`), with theorems
settling the specification claims about it.

Machine integers are modelled as `Nat`/`Int` with explicit reductions modulo
`2 ^ 32` where the source relies on 32-bit wraparound (SHA-256).  Fallible
Python code is modelled with `Option`/`Except`: an uncaught Python exception
becomes an `Except.error`.
-/

set_option maxRecDepth 10000

/-! ## Basic character/string helpers (models of the Python `str` methods used) -/

/-- ASCII lowercase of one character, as used by `str.lower()` on header names
(header names are ASCII in practice). -/
def lowerChar (c : Char) : Char :=
  if 'A' ≤ c ∧ c ≤ 'Z' then Char.ofNat (c.toNat + 32) else c

/-- `str.lower()` restricted to ASCII letters. -/
def lowerStr (s : String) : String :=
  String.mk (s.data.map lowerChar)

/-- The characters Python's `str.strip()` removes (ASCII whitespace). -/
def isPyWs (c : Char) : Bool :=
  c = ' ' ∨ c = '\t' ∨ c = '\n' ∨ c = '\r' ∨ c = '\x0b' ∨ c = '\x0c'

/-- `str.strip()`: drop leading and trailing whitespace. -/
def pyStrip (s : String) : String :=
  String.mk ((s.data.dropWhile isPyWs).reverse.dropWhile isPyWs |>.reverse)

/-- Does `p` start the list? -/
def startsWithChars : List Char → List Char → Bool
  | [], _ => true
  | _ :: _, [] => false
  | p :: ps, c :: cs => p = c ∧ startsWithChars ps cs

/-- `str.startswith(pre)` (char-list based so it computes by kernel
reduction). -/
def strStartsWith (s pre : String) : Bool := startsWithChars pre.data s.data

/-- `str.endswith(suf)`. -/
def strEndsWith (s suf : String) : Bool :=
  startsWithChars suf.data.reverse s.data.reverse

/-- `str.split(sep)` for a one-character separator, keeping empty pieces. -/
def splitOnCharAux (sep : Char) : List Char → List Char → List String
  | [], acc => [String.mk acc.reverse]
  | c :: r, acc =>
    if c = sep then String.mk acc.reverse :: splitOnCharAux sep r []
    else splitOnCharAux sep r (c :: acc)

/-- `str.split(sep)` for a one-character separator. -/
def splitOnChar (sep : Char) (s : String) : List String :=
  splitOnCharAux sep s.data []

/-- Lexicographic code-point comparison of strings, the order Python's
`sorted` uses on `str` (and `json.dumps(sort_keys=True)`). -/
def strLtB : List Char → List Char → Bool
  | [], [] => false
  | [], _ :: _ => true
  | _ :: _, [] => false
  | a :: as, b :: bs =>
    if a.toNat < b.toNat then true
    else if b.toNat < a.toNat then false
    else strLtB as bs

/-- Zero-pad the decimal representation of `n` to `w` digits
(`strftime`-style `%02d`/`%04d`). -/
def padNum (w : Nat) (n : Nat) : String :=
  let s := toString n
  if s.length < w then String.mk (List.replicate (w - s.length) '0') ++ s else s

/-! ## Fixed-width lowercase hex (the tail of `hashlib.sha256(...).hexdigest()`) -/

/-- One lowercase hex digit for `n < 16`. -/
def hexDigitChar (n : Nat) : Char :=
  match n with
  | 0 => '0' | 1 => '1' | 2 => '2' | 3 => '3' | 4 => '4'
  | 5 => '5' | 6 => '6' | 7 => '7' | 8 => '8' | 9 => '9'
  | 10 => 'a' | 11 => 'b' | 12 => 'c' | 13 => 'd' | 14 => 'e'
  | _ => 'f'

/-- Exactly `w` lowercase hex digits of `x`, most significant first. -/
def toHexFixed : Nat → Nat → List Char
  | 0, _ => []
  | w + 1, x => toHexFixed w (x / 16) ++ [hexDigitChar (x % 16)]

theorem toHexFixed_length (w x : Nat) : (toHexFixed w x).length = w := by
  induction w generalizing x with
  | zero => rfl
  | succ n ih => simp [toHexFixed, ih]

/-- Lowercase-hex-digit predicate (`0-9` or `a-f`). -/
def isHexLowerChar (c : Char) : Bool :=
  (48 ≤ c.toNat ∧ c.toNat ≤ 57) ∨ (97 ≤ c.toNat ∧ c.toNat ≤ 102)

theorem hexDigitChar_isHex (n : Nat) : isHexLowerChar (hexDigitChar n) = true := by
  unfold hexDigitChar
  split <;> decide

theorem toHexFixed_all_hex (w x : Nat) :
    ∀ c ∈ toHexFixed w x, isHexLowerChar c = true := by
  induction w generalizing x with
  | zero => intro c hc; simp [toHexFixed] at hc
  | succ n ih =>
    intro c hc
    simp only [toHexFixed, List.mem_append, List.mem_singleton] at hc
    rcases hc with h | h
    · exact ih _ c h
    · subst h; exact hexDigitChar_isHex _

/-! ## SHA-256 (model of `hashlib.sha256(...).hexdigest()`)

Words are `Nat` reduced modulo `2 ^ 32` after every operation that can
overflow. -/

/-- Reduce to a 32-bit word. -/
def m32 (x : Nat) : Nat := x % 4294967296

/-- 32-bit right rotation. -/
def rotr32 (n x : Nat) : Nat := m32 ((x >>> n) ||| (x <<< (32 - n)))

/-- The eight SHA-256 initial hash words. -/
def shaInit : List Nat :=
  [1779033703, 3144134277, 1013904242, 2773480762,
   1359893119, 2600822924, 528734635, 1541459225]

/-- The 64 SHA-256 round constants. -/
def shaK : List Nat :=
  [1116352408, 1899447441, 3049323471, 3921009573, 961987163, 1508970993,
   2453635748, 2870763221, 3624381080, 310598401, 607225278, 1426881987,
   1925078388, 2162078206, 2614888103, 3248222580, 3835390401, 4022224774,
   264347078, 604807628, 770255983, 1249150122, 1555081692, 1996064986,
   2554220882, 2821834349, 2952996808, 3210313671, 3336571891, 3584528711,
   113926993, 338241895, 666307205, 773529912, 1294757372, 1396182291,
   1695183700, 1986661051, 2177026350, 2456956037, 2730485921, 2820302411,
   3259730800, 3345764771, 3516065817, 3600352804, 4094571909, 275423344,
   430227734, 506948616, 659060556, 883997877, 958139571, 1322822218,
   1537002063, 1747873779, 1955562222, 2024104815, 2227730452, 2361852424,
   2428436474, 2756734187, 3204031479, 3329325298]

/-- Big-endian bytes of `n`, exactly `w` bytes. -/
def toBytesBE : Nat → Nat → List Nat
  | 0, _ => []
  | w + 1, n => toBytesBE w (n / 256) ++ [n % 256]

/-- SHA-256 padding: `0x80`, zeros to 56 mod 64, then the bit length as
eight big-endian bytes. -/
def shaPad (msg : List Nat) : List Nat :=
  let l := msg.length
  let zeros := (64 + 56 - (l + 1) % 64) % 64
  msg ++ [128] ++ List.replicate zeros 0 ++ toBytesBE 8 (l * 8)

/-- Split into 64-byte blocks (fuel bounds the number of blocks, so the
recursion is structural and computes by kernel reduction). -/
def toBlocksF : Nat → List Nat → List (List Nat)
  | 0, _ => []
  | _, [] => []
  | f + 1, bs => bs.take 64 :: toBlocksF f (bs.drop 64)

/-- Split into 64-byte blocks. -/
def toBlocks (bs : List Nat) : List (List Nat) :=
  toBlocksF (bs.length + 1) bs

/-- Big-endian 32-bit words from bytes, four at a time. -/
def bytesToWords : List Nat → List Nat
  | b0 :: b1 :: b2 :: b3 :: rest =>
    (((b0 * 256 + b1) * 256 + b2) * 256 + b3) :: bytesToWords rest
  | _ => []

/-- Extend the 16 message words to the 64-entry schedule. -/
def shaSchedule (w0 : Array Nat) : Array Nat :=
  (List.range 48).foldl
    (fun w i =>
      let t := i + 16
      let x15 := w.getD (t - 15) 0
      let x2 := w.getD (t - 2) 0
      let s0 := (rotr32 7 x15) ^^^ (rotr32 18 x15) ^^^ (x15 >>> 3)
      let s1 := (rotr32 17 x2) ^^^ (rotr32 19 x2) ^^^ (x2 >>> 10)
      w.push (m32 (w.getD (t - 16) 0 + s0 + w.getD (t - 7) 0 + s1)))
    w0

/-- One SHA-256 compression of a 64-byte block into the running hash. -/
def shaCompress (h0 : List Nat) (block : List Nat) : List Nat :=
  let w := shaSchedule (Array.mk (bytesToWords block))
  let st := (List.range 64).foldl
    (fun st i =>
      match st with
      | (a, b, c, d, e, f, g, h) =>
        let s1 := (rotr32 6 e) ^^^ (rotr32 11 e) ^^^ (rotr32 25 e)
        let ch := (e &&& f) ^^^ ((4294967295 - e) &&& g)
        let t1 := m32 (h + s1 + ch + shaK.getD i 0 + w.getD i 0)
        let s0 := (rotr32 2 a) ^^^ (rotr32 13 a) ^^^ (rotr32 22 a)
        let mj := (a &&& b) ^^^ (a &&& c) ^^^ (b &&& c)
        let t2 := m32 (s0 + mj)
        (m32 (t1 + t2), a, b, c, m32 (d + t1), e, f, g))
    (h0.getD 0 0, h0.getD 1 0, h0.getD 2 0, h0.getD 3 0,
     h0.getD 4 0, h0.getD 5 0, h0.getD 6 0, h0.getD 7 0)
  [m32 (h0.getD 0 0 + st.1), m32 (h0.getD 1 0 + st.2.1),
   m32 (h0.getD 2 0 + st.2.2.1), m32 (h0.getD 3 0 + st.2.2.2.1),
   m32 (h0.getD 4 0 + st.2.2.2.2.1), m32 (h0.getD 5 0 + st.2.2.2.2.2.1),
   m32 (h0.getD 6 0 + st.2.2.2.2.2.2.1), m32 (h0.getD 7 0 + st.2.2.2.2.2.2.2)]

/-- The eight 32-bit digest words of a byte string. -/
def sha256Words (msg : List Nat) : List Nat :=
  (toBlocks (shaPad msg)).foldl shaCompress shaInit

/-- `hashlib.sha256(msg).hexdigest()`: 64 lowercase hex characters. -/
def sha256Hex (msg : List Nat) : String :=
  String.mk (((sha256Words msg).map (toHexFixed 8)).foldr (· ++ ·) [])

/-- FIPS 180-4 test vector: the empty message. -/
theorem sha256_test_vector_empty :
    sha256Hex [] =
      "e3b0c44298fc1c149afbf4c8996fb92427ae41e4649b934ca495991b7852b855" := by
  decide

/-- FIPS 180-4 test vector: `"abc"`. -/
theorem sha256_test_vector_abc :
    sha256Hex [97, 98, 99] =
      "ba7816bf8f01cfea414140de5dae2223b00361a396177a9cb410ff61f20015ad" := by
  decide

/-! ## Text codecs

Models of the Python codec machinery used by `_msg_to_dict`:
`bytes.decode(charset, errors="replace")` via a codec registry that raises
`LookupError` (here: `none`) on unknown charset labels, and UTF-8 decoding
with U+FFFD substitution for undecodable sequences. -/

/-- UTF-8 bytes of one character. -/
def utf8EncodeChar (c : Char) : List Nat :=
  let n := c.toNat
  if n < 128 then [n]
  else if n < 2048 then [192 ||| (n >>> 6), 128 ||| (n &&& 63)]
  else if n < 65536 then
    [224 ||| (n >>> 12), 128 ||| ((n >>> 6) &&& 63), 128 ||| (n &&& 63)]
  else
    [240 ||| (n >>> 18), 128 ||| ((n >>> 12) &&& 63),
     128 ||| ((n >>> 6) &&& 63), 128 ||| (n &&& 63)]

/-- `str.encode("utf-8")`. -/
def utf8Encode (s : String) : List Nat :=
  s.data.foldr (fun c acc => utf8EncodeChar c ++ acc) []

/-- The replacement character U+FFFD. -/
def replChar : Char := Char.ofNat 65533

/-- UTF-8 continuation byte. -/
def isContByte (b : Nat) : Bool := 128 ≤ b ∧ b ≤ 191

/-- UTF-8 decoding with replacement, fuel-recursive so that it computes by
kernel reduction; the fuel is the byte count, and every step consumes at
least one byte. -/
def utf8DRF : Nat → List Nat → List Char
  | 0, _ => []
  | _, [] => []
  | f + 1, b :: rest =>
    if b < 128 then Char.ofNat b :: utf8DRF f rest
    else if 194 ≤ b ∧ b ≤ 223 then
      match rest with
      | b2 :: r2 =>
        if isContByte b2 then
          Char.ofNat (((b - 192) <<< 6) + (b2 - 128)) :: utf8DRF f r2
        else replChar :: utf8DRF f (b2 :: r2)
      | [] => [replChar]
    else if 224 ≤ b ∧ b ≤ 239 then
      match rest with
      | b2 :: r2 =>
        let lo2 := if b = 224 then 160 else 128
        let hi2 := if b = 237 then 159 else 191
        if lo2 ≤ b2 ∧ b2 ≤ hi2 then
          match r2 with
          | b3 :: r3 =>
            if isContByte b3 then
              Char.ofNat (((b - 224) <<< 12) + ((b2 - 128) <<< 6) + (b3 - 128)) ::
                utf8DRF f r3
            else replChar :: utf8DRF f (b3 :: r3)
          | [] => [replChar]
        else replChar :: utf8DRF f (b2 :: r2)
      | [] => [replChar]
    else if 240 ≤ b ∧ b ≤ 244 then
      match rest with
      | b2 :: r2 =>
        let lo2 := if b = 240 then 144 else 128
        let hi2 := if b = 244 then 143 else 191
        if lo2 ≤ b2 ∧ b2 ≤ hi2 then
          match r2 with
          | b3 :: r3 =>
            if isContByte b3 then
              match r3 with
              | b4 :: r4 =>
                if isContByte b4 then
                  Char.ofNat (((b - 240) <<< 18) + ((b2 - 128) <<< 12) +
                    ((b3 - 128) <<< 6) + (b4 - 128)) :: utf8DRF f r4
                else replChar :: utf8DRF f (b4 :: r4)
              | [] => [replChar]
            else replChar :: utf8DRF f (b3 :: r3)
          | [] => [replChar]
        else replChar :: utf8DRF f (b2 :: r2)
      | [] => [replChar]
    else replChar :: utf8DRF f rest

/-- `bytes.decode("utf-8", errors="replace")`: well-formed sequences decode;
an ill-formed leading byte, or a well-formed prefix cut short, is replaced by
one U+FFFD and decoding resumes at the first unconsumed byte. -/
def utf8DecodeReplace (bs : List Nat) : List Char :=
  utf8DRF bs.length bs

/-- `bytes.decode("latin-1")`: each byte is its code point. -/
def latin1Decode (bs : List Nat) : List Char :=
  bs.map (fun b => Char.ofNat (b % 256))

/-- `bytes.decode("ascii", errors="replace")`. -/
def asciiDecodeReplace (bs : List Nat) : List Char :=
  bs.map (fun b => if b < 128 then Char.ofNat b else replChar)

/-- Model of the Python codec registry as used by
`data.decode(charset, errors="replace")`: the labels the pipeline's inputs
actually carry, with `none` for an unknown label, which is where Python
raises `LookupError`. -/
def lookupCodec (charset : String) : Option (List Nat → List Char) :=
  if charset = "utf-8" ∨ charset = "utf8" ∨ charset = "utf_8" then
    some utf8DecodeReplace
  else if charset = "ascii" ∨ charset = "us-ascii" then some asciiDecodeReplace
  else if charset = "latin-1" ∨ charset = "latin1" ∨ charset = "iso-8859-1" then
    some latin1Decode
  else none

/-! ## Base64 (model of `base64.b64encode(data).decode("ascii")`) -/

/-- The base64 alphabet character for `n < 64`. -/
def b64Char (n : Nat) : Char :=
  if n < 26 then Char.ofNat (65 + n)
  else if n < 52 then Char.ofNat (97 + (n - 26))
  else if n < 62 then Char.ofNat (48 + (n - 52))
  else if n = 62 then '+' else '/'

/-- Standard base64 with padding. -/
def b64EncodeChars : List Nat → List Char
  | [] => []
  | [a] => [b64Char (a >>> 2), b64Char ((a &&& 3) <<< 4), '=', '=']
  | [a, b] =>
    [b64Char (a >>> 2), b64Char (((a &&& 3) <<< 4) ||| (b >>> 4)),
     b64Char ((b &&& 15) <<< 2), '=']
  | a :: b :: c :: rest =>
    b64Char (a >>> 2) :: b64Char (((a &&& 3) <<< 4) ||| (b >>> 4)) ::
    b64Char (((b &&& 15) <<< 2) ||| (c >>> 6)) :: b64Char (c &&& 63) ::
    b64EncodeChars rest

/-- `base64.b64encode(data).decode("ascii")`. -/
def b64Encode (bs : List Nat) : String := String.mk (b64EncodeChars bs)

/-- Value of a base64 alphabet character. -/
def b64Val (c : Char) : Option Nat :=
  if 'A' ≤ c ∧ c ≤ 'Z' then some (c.toNat - 65)
  else if 'a' ≤ c ∧ c ≤ 'z' then some (c.toNat - 71)
  else if '0' ≤ c ∧ c ≤ '9' then some (c.toNat + 4)
  else if c = '+' then some 62
  else if c = '/' then some 63
  else none

/-- Standard base64 decoding on well-padded input (`none` is
`binascii.Error`). -/
def b64DecodeChars : List Char → Option (List Nat)
  | [] => some []
  | [a, b, '=', '='] =>
    (b64Val a).bind fun va => (b64Val b).map fun vb =>
      [((va <<< 2) ||| (vb >>> 4))]
  | [a, b, c, '='] =>
    (b64Val a).bind fun va => (b64Val b).bind fun vb =>
    (b64Val c).map fun vc =>
      [((va <<< 2) ||| (vb >>> 4)), (((vb &&& 15) <<< 4) ||| (vc >>> 2))]
  | a :: b :: c :: d :: r =>
    (b64Val a).bind fun va => (b64Val b).bind fun vb =>
    (b64Val c).bind fun vc => (b64Val d).bind fun vd =>
    (b64DecodeChars r).map fun rest =>
      ((va <<< 2) ||| (vb >>> 4)) :: (((vb &&& 15) <<< 4) ||| (vc >>> 2)) ::
        (((vc &&& 3) <<< 6) ||| vd) :: rest
  | _ => none

/-! ## JSON values and `json.dumps`

The dict a message normalizes to is modelled by `Jx` (only strings, arrays
and string-keyed objects occur).  `json.dumps(..., sort_keys=True)` is
modelled by a recursive key sort followed by printing; the two dump
configurations the source uses are both implemented:
`ensure_ascii=True, indent=2` for the stored document and
`ensure_ascii=False` (compact, default separators) for hashing. -/

inductive Jx where
  | str (s : String)
  | arr (xs : List Jx)
  | obj (kvs : List (String × Jx))

/-- Insert by key into an ascending list (keys in one dict are distinct, so
stability is irrelevant). -/
def insertKv (p : String × Jx) : List (String × Jx) → List (String × Jx)
  | [] => [p]
  | q :: rest => if strLtB p.1.data q.1.data then p :: q :: rest else q :: insertKv p rest

/-- Ascending insertion sort of object entries by key, the order
`sort_keys=True` emits. -/
def sortKvs : List (String × Jx) → List (String × Jx)
  | [] => []
  | p :: rest => insertKv p (sortKvs rest)

mutual
/-- Recursively sort every object's keys, the effect of
`json.dumps(..., sort_keys=True)` on the emitted structure. -/
def sortJx : Jx → Jx
  | .str s => .str s
  | .arr xs => .arr (sortJxList xs)
  | .obj kvs => .obj (sortKvs (sortJxKvs kvs))
def sortJxList : List Jx → List Jx
  | [] => []
  | x :: r => sortJx x :: sortJxList r
def sortJxKvs : List (String × Jx) → List (String × Jx)
  | [] => []
  | (k, v) :: r => (k, sortJx v) :: sortJxKvs r
end

/-- The short escapes `json.dumps` uses in both modes, `none` when the
character has no short escape. -/
def escShort (c : Char) : Option (List Char) :=
  if c = '"' then some ['\\', '"']
  else if c = '\\' then some ['\\', '\\']
  else if c = '\n' then some ['\\', 'n']
  else if c = '\t' then some ['\\', 't']
  else if c = '\r' then some ['\\', 'r']
  else if c = Char.ofNat 8 then some ['\\', 'b']
  else if c = Char.ofNat 12 then some ['\\', 'f']
  else none

/-- `\uXXXX`. -/
def escU (n : Nat) : List Char := '\\' :: 'u' :: toHexFixed 4 n

/-- One character under `ensure_ascii=True`: everything outside `0x20`–`0x7e`
is escaped, astral characters as surrogate pairs. -/
def escCharAscii (c : Char) : List Char :=
  match escShort c with
  | some e => e
  | none =>
    let n := c.toNat
    if 32 ≤ n ∧ n ≤ 126 then [c]
    else if n < 65536 then escU n
    else
      let m := n - 65536
      escU (55296 + (m >>> 10)) ++ escU (56320 + (m &&& 1023))

/-- One character under `ensure_ascii=False`: only `"`, `\` and control
characters below `0x20` are escaped. -/
def escCharRaw (c : Char) : List Char :=
  match escShort c with
  | some e => e
  | none => if c.toNat < 32 then escU c.toNat else [c]

/-- A JSON string literal under the given per-character escape. -/
def jsonQuote (esc : Char → List Char) (s : String) : String :=
  String.mk ('"' :: s.data.foldr (fun c acc => esc c ++ acc) ['"'])

mutual
/-- `json.dumps(j, ensure_ascii=False)` on an already key-sorted value:
compact mode with the default separators `", "` and `": "`. -/
def jxCompact : Jx → String
  | .str s => jsonQuote escCharRaw s
  | .arr xs => "[" ++ String.intercalate ", " (jxCompactArr xs) ++ "]"
  | .obj kvs => "\x7b" ++ String.intercalate ", " (jxCompactObj kvs) ++ "\x7d"
def jxCompactArr : List Jx → List String
  | [] => []
  | x :: r => jxCompact x :: jxCompactArr r
def jxCompactObj : List (String × Jx) → List String
  | [] => []
  | (k, v) :: r => (jsonQuote escCharRaw k ++ ": " ++ jxCompact v) :: jxCompactObj r
end

/-- `n` spaces. -/
def spaces (n : Nat) : String := String.mk (List.replicate n ' ')

mutual
/-- `json.dumps(j, ensure_ascii=True, indent=2)` on an already key-sorted
value, at indent level `ind`: items one per line, `","` between items, empty
containers inline. -/
def jxPretty (ind : Nat) : Jx → String
  | .str s => jsonQuote escCharAscii s
  | .arr [] => "[]"
  | .arr (x :: r) =>
    "[\n" ++ String.intercalate ",\n" (jxPrettyArr (ind + 2) (x :: r)) ++
      "\n" ++ spaces ind ++ "]"
  | .obj [] => "\x7b\x7d"
  | .obj (p :: r) =>
    "\x7b\n" ++ String.intercalate ",\n" (jxPrettyObj (ind + 2) (p :: r)) ++
      "\n" ++ spaces ind ++ "\x7d"
def jxPrettyArr (ind : Nat) : List Jx → List String
  | [] => []
  | x :: r => (spaces ind ++ jxPretty ind x) :: jxPrettyArr ind r
def jxPrettyObj (ind : Nat) : List (String × Jx) → List String
  | [] => []
  | (k, v) :: r =>
    (spaces ind ++ jsonQuote escCharAscii k ++ ": " ++ jxPretty ind v) ::
      jxPrettyObj ind r
end

/-- `json.dumps(j, sort_keys=True, ensure_ascii=True, indent=2)` — the
serialization `__post_init__` stores as `as_json`. -/
def dumpsStored (j : Jx) : String := jxPretty 0 (sortJx j)

/-- `json.dumps(j, sort_keys=True, ensure_ascii=False)` — the serialization
`_hash_dict` feeds to SHA-256. -/
def dumpsForHash (j : Jx) : String := jxCompact (sortJx j)

/-! ## The raw message and `MboxMessage._msg_to_dict`

`EmailMessage` is the RawMessage of the spec: the ordered raw header
occurrences plus a body that is either a content leaf or an ordered list of
sub-messages.  For a leaf, `contentType` is the value
`msg.get_content_type()` returns (declared type lowercased, or the
`text/plain` default) and `charsetDecl` the declared charset à la
`msg.get_content_charset()` (lowercased, `none` when undeclared);
`data` is the transfer-decoded payload `msg.get_payload(decode=True) or b""`.
These three are produced by the out-of-scope stdlib mbox reader, so they are
inputs here. -/

mutual
inductive EmailMessage where
  | mk (rawHeaders : List (String × String)) (body : EmailBody)
inductive EmailBody where
  | leaf (contentType : String) (charsetDecl : Option String) (data : List Nat)
  | multi (children : List EmailMessage)
end

/-- The ordered raw header occurrences (`msg.raw_items()`). -/
def EmailMessage.rawHeaders : EmailMessage → List (String × String)
  | .mk hs _ => hs

/-- The body. -/
def EmailMessage.body : EmailMessage → EmailBody
  | .mk _ b => b

/-- Value of a hex digit, either case. -/
def hexDigitVal (c : Char) : Option Nat :=
  if '0' ≤ c ∧ c ≤ '9' then some (c.toNat - 48)
  else if 'a' ≤ c ∧ c ≤ 'f' then some (c.toNat - 87)
  else if 'A' ≤ c ∧ c ≤ 'F' then some (c.toNat - 55)
  else none

/-- Bytes of Q-encoded text (the RFC 2047 quoted-printable header variant):
`_` is a space, `=XX` a hex byte, any other character its own code point;
a malformed `=` escape is kept literally, as `quoprimime.header_decode`
keeps it. -/
def qDecodeBytesF : Nat → List Char → List Nat
  | 0, _ => []
  | _, [] => []
  | f + 1, '_' :: r => 32 :: qDecodeBytesF f r
  | f + 1, '=' :: r =>
    (match r with
     | h1 :: h2 :: r2 =>
       match hexDigitVal h1, hexDigitVal h2 with
       | some a, some b => (16 * a + b) :: qDecodeBytesF f r2
       | _, _ => 61 :: qDecodeBytesF f r
     | _ => 61 :: qDecodeBytesF f r)
  | f + 1, c :: r => c.toNat :: qDecodeBytesF f r

/-- Q-decoding with the fuel bound by the text length (each step consumes
at least one character). -/
def qDecodeBytes (cs : List Char) : List Nat := qDecodeBytesF cs.length cs

/-- The charset part of an encoded word: characters up to the first `?`. -/
def splitQm : List Char → Option (List Char × List Char)
  | [] => none
  | c :: r =>
    if c = '?' then some ([], r)
    else (splitQm r).map fun p => (c :: p.1, p.2)

/-- The text part of an encoded word: everything before a final `?=`, which
must end the value (`none` when the value is not one whole encoded word). -/
def encWordText : List Char → Option (List Char)
  | [] => none
  | '?' :: r =>
    (match r with
     | '=' :: r2 => if r2 = [] then some [] else none
     | _ => (encWordText r).map ('?' :: ·))
  | c :: r => (encWordText r).map (c :: ·)

/-- A value that is exactly one RFC 2047 encoded word
`=?charset?e?text?=`: its charset, encoding character and text. -/
def parseEncodedWord (cs : List Char) : Option (String × Char × List Char) :=
  match cs with
  | '=' :: '?' :: r =>
    (splitQm r).bind fun p =>
      match p.2 with
      | e :: '?' :: r2 =>
        (encWordText r2).map fun text => (String.mk p.1, e, text)
      | _ => none
  | _ => none

/-- Model of `str(make_header(decode_header(v)))` on the header shapes the
claims evaluate it at.  A value that is not one whole encoded word — in
particular any value without the `=?` marker — is returned unchanged; a
value that is exactly one RFC 2047 encoded word `=?charset?Q|B?text?=` is
decoded: Q maps `_` to space and `=XX` to a hex byte, B is base64, and the
bytes are decoded under the word's lowercased charset label; an
unrecognized encoding character keeps the value literal, as the stdlib
does.  Outside the model (exercised by no claim): values mixing encoded
words with surrounding text, charsets outside the registry (where the
stdlib raises `LookupError`), and undecodable bytes under a strict codec. -/
def decodeHeaderValue (v : String) : String :=
  match parseEncodedWord v.data with
  | none => v
  | some (cset, e, text) =>
    let bytesOpt : Option (List Nat) :=
      if e = 'q' ∨ e = 'Q' then some (qDecodeBytes text)
      else if e = 'b' ∨ e = 'B' then b64DecodeChars text
      else none
    match bytesOpt with
    | none => v
    | some bs =>
      match lookupCodec (lowerStr cset) with
      | some dec => String.mk (dec bs)
      | none => v

/-- One step of `headers.setdefault(name, []).append(value)`: append to the
entry with this exact key, or add a new entry at the end. -/
def setdefaultAppend : List (String × List String) → String → String →
    List (String × List String)
  | [], n, v => [(n, [v])]
  | (k, vs) :: rest, n, v =>
    if k = n then (k, vs ++ [v]) :: rest
    else (k, vs) :: setdefaultAppend rest n v

/-- The header-collection loop of `_msg_to_dict`: every occurrence in order,
grouped by exact header name, first-seen key order. -/
def groupHeaders (hs : List (String × String)) : List (String × List String) :=
  hs.foldl (fun acc p => setdefaultAppend acc p.1 p.2) []

/-- The decoded header pairs (`(name, str(make_header(decode_header(v))))`). -/
def decodedPairs (hs : List (String × String)) : List (String × String) :=
  hs.map fun p => (p.1, decodeHeaderValue p.2)

/-- The grouped, decoded headers of a message — the `headers` component of
its msg_dict. -/
def groupedHeaders (m : EmailMessage) : List (String × List String) :=
  groupHeaders (decodedPairs m.rawHeaders)

/-- The headers dict as a JSON value. -/
def headersToJx (g : List (String × List String)) : Jx :=
  Jx.obj (g.map fun p => (p.1, Jx.arr (p.2.map Jx.str)))

mutual
/-- `MboxMessage._msg_to_dict`: headers grouped in order, payload either one
child dict per subpart (multipart), a text leaf (content type starting
`text/`, decoded by declared charset with UTF-8-replace fallback on unknown
charsets), or a binary leaf with base64 data. -/
def msg_to_dict : EmailMessage → Jx
  | .mk hs b =>
    Jx.obj [("headers", headersToJx (groupHeaders (decodedPairs hs))),
            ("payload", payloadToJx b)]
def payloadToJx : EmailBody → Jx
  | .leaf ct cs data =>
    if strStartsWith ct "text/" then
      let charset := cs.getD "utf-8"
      let text :=
        match lookupCodec charset with
        | some dec => String.mk (dec data)
        | none => String.mk (utf8DecodeReplace data)
      Jx.obj [("type", .str "text"), ("content_type", .str ct),
              ("charset", .str charset), ("text", .str text)]
    else
      Jx.obj [("type", .str "binary"), ("content_type", .str ct),
              ("data_b64", .str (b64Encode data))]
  | .multi cs => Jx.arr (msgsToDicts cs)
def msgsToDicts : List EmailMessage → List Jx
  | [] => []
  | m :: r => msg_to_dict m :: msgsToDicts r
end

/-- `self.as_json` after `__post_init__`:
`json.dumps(msg_dict, sort_keys=True, ensure_ascii=True, indent=2)`. -/
def as_json (m : EmailMessage) : String := dumpsStored (msg_to_dict m)

/-- `MboxMessage._hash_dict`: SHA-256 hex digest of the compact
`sort_keys=True, ensure_ascii=False` serialization, UTF-8 encoded. -/
def hash_dict (d : Jx) : String := sha256Hex (utf8Encode (dumpsForHash d))

/-- `email.message.Message.get(name)`: the first header whose name matches
case-insensitively, returning its raw value. -/
def ciGet : List (String × String) → String → Option String
  | [], _ => none
  | (k, v) :: rest, n => if lowerStr k = lowerStr n then some v else ciGet rest n

/-- `MboxMessage._get_or_generate_message_id`: the stripped `Message-ID`
value if non-empty, otherwise the content digest of the msg_dict. -/
def get_or_generate_message_id (m : EmailMessage) : String :=
  let msgId := pyStrip ((ciGet m.rawHeaders "Message-ID").getD "")
  if msgId = "" then hash_dict (msg_to_dict m) else msgId

/-! ## Instants and calendars

A UTC instant is modelled as milliseconds since the Unix epoch (`Int`).
`datetime.fromtimestamp(ms / 1000, tz=timezone.utc)` keeps millisecond
precision, which this representation captures exactly (the float detour's
sub-microsecond rounding is outside the model and irrelevant to every
claim). -/

/-- Proleptic-Gregorian day number of a civil date (days since 1970-01-01,
floor-division form of the standard era-based algorithm). -/
def daysFromCivil (y m d : Int) : Int :=
  let yAdj := if m ≤ 2 then y - 1 else y
  let era := Int.fdiv yAdj 400
  let yoe := yAdj - era * 400
  let mp := if m > 2 then m - 3 else m + 9
  let doy := Int.fdiv (153 * mp + 2) 5 + d - 1
  let doe := yoe * 365 + Int.fdiv yoe 4 - Int.fdiv yoe 100 + doy
  era * 146097 + doe - 719468

/-- Civil date of a day number (inverse of `daysFromCivil`). -/
def civilFromDays (z0 : Int) : Int × Int × Int :=
  let z := z0 + 719468
  let era := Int.fdiv z 146097
  let doe := z - era * 146097
  let yoe := Int.fdiv
    (doe - Int.fdiv doe 1460 + Int.fdiv doe 36524 - Int.fdiv doe 146096) 365
  let y := yoe + era * 400
  let doy := doe - (365 * yoe + Int.fdiv yoe 4 - Int.fdiv yoe 100)
  let mp := Int.fdiv (5 * doy + 2) 153
  let d := doy - Int.fdiv (153 * mp + 2) 5 + 1
  let m := if mp < 10 then mp + 3 else mp - 9
  (if m ≤ 2 then y + 1 else y, m, d)

/-- Gregorian leap year. -/
def isLeapYear (y : Int) : Bool := (y % 4 = 0 ∧ y % 100 ≠ 0) ∨ y % 400 = 0

/-- Days in a month (`datetime` validates the day against this). -/
def daysInMonth (y m : Int) : Int :=
  if m = 2 then (if isLeapYear y then 29 else 28)
  else if m = 4 ∨ m = 6 ∨ m = 9 ∨ m = 11 then 30
  else 31

/-- `received_at.strftime("%Y-%m-%d %H:%M:%S")` — `SQLITE_DATE_FORMAT`. -/
def strftimeSqlite (ms : Int) : String :=
  let secs := Int.fdiv ms 1000
  let days := Int.fdiv secs 86400
  let sod := (secs - days * 86400).toNat
  let ymd := civilFromDays days
  padNum 4 ymd.1.toNat ++ "-" ++ padNum 2 ymd.2.1.toNat ++ "-" ++
    padNum 2 ymd.2.2.toNat ++ " " ++ padNum 2 (sod / 3600) ++ ":" ++
    padNum 2 (sod / 60 % 60) ++ ":" ++ padNum 2 (sod % 60)

/-! ## `int(...)` and date-string parsing -/

/-- Decimal digit value. -/
def digitVal (c : Char) : Option Nat :=
  if '0' ≤ c ∧ c ≤ '9' then some (c.toNat - 48) else none

/-- Digit run with Python's single-underscore-between-digits rule;
`lastDigit` tracks whether the previous character was a digit. -/
def pyIntCore : List Char → Bool → Nat → Option Nat
  | [], true, acc => some acc
  | [], false, _ => none
  | c :: r, lastDigit, acc =>
    match digitVal c with
    | some v => pyIntCore r true (acc * 10 + v)
    | none =>
      if c = '_' ∧ lastDigit then pyIntCore r false acc else none

/-- `int(s)` for base-10 strings: surrounding whitespace, an optional sign,
digits with optional single underscores; `none` is Python's `ValueError`. -/
def pyInt (s : String) : Option Int :=
  let cs := (s.data.dropWhile isPyWs).reverse.dropWhile isPyWs |>.reverse
  match cs with
  | '+' :: r => (pyIntCore r false 0).map Int.ofNat
  | '-' :: r => (pyIntCore r false 0).map (fun n => -(Int.ofNat n))
  | r => (pyIntCore r false 0).map Int.ofNat

/-- All-digit token as a `Nat`. -/
def parseNatDigits (cs : List Char) : Option Nat :=
  match cs with
  | [] => none
  | _ =>
    cs.foldl (fun acc c => acc.bind fun a => (digitVal c).map fun v => a * 10 + v)
      (some 0)

/-- Lowercased month names recognized by `email.utils.parsedate_to_datetime`
(index mod 12 gives the month). -/
def monthNames : List String :=
  ["jan", "feb", "mar", "apr", "may", "jun",
   "jul", "aug", "sep", "oct", "nov", "dec",
   "january", "february", "march", "april", "may", "june",
   "july", "august", "september", "october", "november", "december"]

/-- Lowercased day names. -/
def dayNames : List String := ["mon", "tue", "wed", "thu", "fri", "sat", "sun"]

/-- Zone token to an offset in seconds: the zero-offset names plus numeric
`±HHMM` (with `-0000` meaning "no usable zone", as in the stdlib).
Zones that would leave the datetime naive resolve to `none`; the naive
branch converts via the host's local timezone, which is outside this model
and exercised by no claim. -/
def parseTzToken (tz : String) : Option Int :=
  if lowerStr tz = "gmt" ∨ lowerStr tz = "ut" ∨ lowerStr tz = "utc" ∨
      lowerStr tz = "z" then some 0
  else
    match pyInt tz with
    | none => none
    | some v =>
      if v = 0 ∧ strStartsWith tz "-" then none
      else if v < 0 then
        some (-(Int.fdiv (-v) 100 * 3600 + (-v) % 100 * 60))
      else some (Int.fdiv v 100 * 3600 + v % 100 * 60)

/-- Two-digit-year windowing of `parsedate_tz`. -/
def windowYear (y : Nat) : Nat :=
  if y < 100 then (if y > 68 then y + 1900 else y + 2000) else y

/-- Model of `email.utils.parsedate_to_datetime(raw).astimezone(timezone.utc)`
as epoch milliseconds: optional day-name token, then
`day month year HH:MM[:SS] zone`, permissive about month-name casing and
year windowing, validating the ranges `datetime(...)` enforces.  `none`
covers both the stdlib's parse failure and its naive-datetime branch (see
`parseTzToken`). -/
def parseRfc2822 (s : String) : Option Int :=
  let toks0 := (splitOnChar ' ' s).filter (· ≠ "")
  let toks :=
    match toks0 with
    | t :: rest =>
      if strEndsWith t "," ∨ lowerStr t ∈ dayNames then rest else toks0
    | [] => []
  match toks with
  | [dd, mon, yy, tm, tz] =>
    (parseNatDigits dd.data).bind fun d =>
    (monthNames.findIdx? (· = lowerStr mon)).bind fun mi =>
    (parseNatDigits yy.data).bind fun y0 =>
    (parseTzToken tz).bind fun off =>
    (match (splitOnChar ':' tm).map (fun (c : String) => parseNatDigits c.data) with
     | [some h, some mi2] => some (h, mi2, 0)
     | [some h, some mi2, some se] => some (h, mi2, se)
     | _ => none).bind fun hms =>
    let m := mi % 12 + 1
    let y := windowYear y0
    let h := hms.1
    let mnt := hms.2.1
    let se := hms.2.2
    if 1 ≤ y ∧ y ≤ 9999 ∧ 1 ≤ d ∧ (d : Int) ≤ daysInMonth y m ∧
        h ≤ 23 ∧ mnt ≤ 59 ∧ se ≤ 59 then
      some ((daysFromCivil y m d * 86400 +
        (h : Int) * 3600 + (mnt : Int) * 60 + se - off) * 1000)
    else none
  | _ => none

/-- `datetime.strptime(stamp, "%Y%m%dT%H:%M:%S").replace(tzinfo=timezone.utc)`
as epoch milliseconds (`none` is the `ValueError` the source does not
catch). -/
def strptimeJabber (s : String) : Option Int :=
  match s.data with
  | [y1, y2, y3, y4, m1, m2, d1, d2, 'T', h1, h2, ':', i1, i2, ':', s1, s2] =>
    (parseNatDigits [y1, y2, y3, y4]).bind fun y =>
    (parseNatDigits [m1, m2]).bind fun m =>
    (parseNatDigits [d1, d2]).bind fun d =>
    (parseNatDigits [h1, h2]).bind fun h =>
    (parseNatDigits [i1, i2]).bind fun mi =>
    (parseNatDigits [s1, s2]).bind fun se =>
    if 1 ≤ y ∧ y ≤ 9999 ∧ 1 ≤ m ∧ m ≤ 12 ∧ 1 ≤ d ∧
        (d : Int) ≤ daysInMonth y m ∧ h ≤ 23 ∧ mi ≤ 59 ∧ se ≤ 59 then
      some ((daysFromCivil y m d * 86400 +
        (h : Int) * 3600 + (mi : Int) * 60 + se) * 1000)
    else none
  | _ => none

/-! ## XML (model of `xml.etree.ElementTree.fromstring` and the path lookups)

Elements carry their expanded `\x7buri\x7dlocal` tag, expanded attribute
names, and children in document order.  Text content is not retained: the
chat-timestamp code reads only tags and attributes.  Parse or
namespace-resolution failure is `none` (`ET.ParseError`). -/

inductive XmlNode where
  | mk (tag : String) (attrs : List (String × String)) (children : List XmlNode)

/-- Tag accessor. -/
def XmlNode.tag : XmlNode → String
  | .mk t _ _ => t

/-- Attribute accessor. -/
def XmlNode.attrs : XmlNode → List (String × String)
  | .mk _ a _ => a

/-- Children accessor. -/
def XmlNode.children : XmlNode → List XmlNode
  | .mk _ _ k => k

/-- XML whitespace skip. -/
def skipWsX (cs : List Char) : List Char :=
  cs.dropWhile (fun c => c = ' ' ∨ c = '\n' ∨ c = '\t' ∨ c = '\r')

/-- Characters that end an XML name. -/
def isNameEndX (c : Char) : Bool :=
  c = ' ' ∨ c = '\n' ∨ c = '\t' ∨ c = '\r' ∨ c = '>' ∨ c = '/' ∨ c = '='

/-- Longest name prefix and the rest. -/
def takeNameSplit (cs : List Char) : List Char × List Char :=
  (cs.takeWhile (fun c => ¬ isNameEndX c), cs.dropWhile (fun c => ¬ isNameEndX c))

/-- Characters up to (and consuming) a terminator character. -/
def takeUntilChar (q : Char) : List Char → Option (List Char × List Char)
  | [] => none
  | c :: r =>
    if c = q then some ([], r)
    else (takeUntilChar q r).map (fun p => (c :: p.1, p.2))

/-- Skip past the first occurrence of a token. -/
def skipPastToken (tok : List Char) : List Char → Option (List Char)
  | [] => none
  | c :: r =>
    if startsWithChars tok (c :: r) then some ((c :: r).drop tok.length)
    else skipPastToken tok r

/-- Attribute list `name="value"`* (double or single quotes), stopping before
`>` or `/`. -/
def parseAttrsF : Nat → List Char → Option (List (String × String) × List Char)
  | 0, _ => none
  | f + 1, cs0 =>
    let cs := skipWsX cs0
    match cs with
    | [] => none
    | c :: _ =>
      if c = '>' ∨ c = '/' then some ([], cs)
      else
        let nameRest := takeNameSplit cs
        if nameRest.1 = [] then none
        else
          match skipWsX nameRest.2 with
          | '=' :: r1 =>
            match skipWsX r1 with
            | q :: r2 =>
              if q = '"' ∨ q = Char.ofNat 39 then
                (takeUntilChar q r2).bind fun vr =>
                (parseAttrsF f vr.2).map fun ar =>
                  ((String.mk nameRest.1, String.mk vr.1) :: ar.1, ar.2)
              else none
            | [] => none
          | _ => none

mutual
/-- One element starting at `<`. -/
def parseElemF : Nat → List Char → Option (XmlNode × List Char)
  | 0, _ => none
  | f + 1, cs =>
    match cs with
    | '<' :: r =>
      let nameRest := takeNameSplit r
      if nameRest.1 = [] then none
      else
        (parseAttrsF (f + 1) nameRest.2).bind fun ar =>
        match skipWsX ar.2 with
        | '/' :: '>' :: r3 => some (.mk (String.mk nameRest.1) ar.1 [], r3)
        | '>' :: r3 =>
          (parseChildrenF f (String.mk nameRest.1) r3).map fun kr =>
            (.mk (String.mk nameRest.1) ar.1 kr.1, kr.2)
        | _ => none
    | _ => none
/-- Content of an open element up to its matching end tag; text runs are
skipped, comments are skipped, nested elements are collected in order. -/
def parseChildrenF : Nat → String → List Char → Option (List XmlNode × List Char)
  | 0, _, _ => none
  | f + 1, tag, cs =>
    let cs1 := cs.dropWhile (fun c => c ≠ '<')
    match cs1 with
    | '<' :: '/' :: r =>
      let nameRest := takeNameSplit r
      (match skipWsX nameRest.2 with
       | '>' :: r2 => if String.mk nameRest.1 = tag then some ([], r2) else none
       | _ => none)
    | '<' :: '!' :: _ =>
      (skipPastToken ['-', '-', '>'] cs1).bind fun r => parseChildrenF f tag r
    | '<' :: _ =>
      (parseElemF f cs1).bind fun kr =>
      (parseChildrenF f tag kr.2).map fun ksr => (kr.1 :: ksr.1, ksr.2)
    | _ => none
end

/-- Split at the first `:`. -/
def splitColon : List Char → Option (List Char × List Char)
  | [] => none
  | c :: r =>
    if c = ':' then some ([], r)
    else (splitColon r).map fun p => (c :: p.1, p.2)

/-- Expand an element tag against the namespace environment and default
namespace; an unbound prefix is a parse error. -/
def resolveTag (env : List (String × String)) (dflt : Option String)
    (n : String) : Option String :=
  match splitColon n.data with
  | some pl =>
    (env.lookup (String.mk pl.1)).map fun uri =>
      "\x7b" ++ uri ++ "\x7d" ++ String.mk pl.2
  | none =>
    match dflt with
    | some uri => some ("\x7b" ++ uri ++ "\x7d" ++ n)
    | none => some n

/-- Expand an attribute name: prefixed names resolve, unprefixed names stay
as written (the default namespace does not apply to attributes). -/
def resolveAttrName (env : List (String × String)) (n : String) : Option String :=
  match splitColon n.data with
  | some pl =>
    (env.lookup (String.mk pl.1)).map fun uri =>
      "\x7b" ++ uri ++ "\x7d" ++ String.mk pl.2
  | none => some n

/-- Resolve every attribute name of a list. -/
def resolveAttrList (env : List (String × String)) :
    List (String × String) → Option (List (String × String))
  | [] => some []
  | (k, v) :: r =>
    (resolveAttrName env k).bind fun k' =>
    (resolveAttrList env r).map fun r' => (k', v) :: r'

/-- `xmlns:p` declarations of an attribute list. -/
def nsDeclsOf (attrs : List (String × String)) : List (String × String) :=
  attrs.filterMap fun kv =>
    match splitColon kv.1.data with
    | some pl => if String.mk pl.1 = "xmlns" then some (String.mk pl.2, kv.2) else none
    | none => none

mutual
/-- Namespace resolution over the raw tree: collect `xmlns`/`xmlns:p`
declarations (which `ET` removes from `.attrib`), expand tags and attribute
names. -/
def resolveNode (env : List (String × String)) (dflt : Option String) :
    XmlNode → Option XmlNode
  | .mk tag attrs kids =>
    let env' := nsDeclsOf attrs ++ env
    let dflt' :=
      match attrs.lookup "xmlns" with
      | some v => if v = "" then none else some v
      | none => dflt
    let kept := attrs.filter fun kv =>
      kv.1 ≠ "xmlns" ∧ ¬ startsWithChars ['x', 'm', 'l', 'n', 's', ':'] kv.1.data
    (resolveTag env' dflt' tag).bind fun tag' =>
    (resolveAttrList env' kept).bind fun attrs' =>
    (resolveKids env' dflt' kids).map fun kids' => .mk tag' attrs' kids'
def resolveKids (env : List (String × String)) (dflt : Option String) :
    List XmlNode → Option (List XmlNode)
  | [] => some []
  | k :: r =>
    (resolveNode env dflt k).bind fun k' =>
    (resolveKids env dflt r).map fun r' => k' :: r'
end

/-- `ET.fromstring`: optional prolog, optional comments, one root element,
nothing but whitespace after it; namespaces resolved. -/
def xmlFromString (s : String) : Option XmlNode :=
  let cs := skipWsX s.data
  let afterProlog :=
    if startsWithChars ['<', '?'] cs then skipPastToken ['?', '>'] cs
    else some cs
  afterProlog.bind fun cs1 =>
  (parseElemF (s.length + 2) (skipWsX cs1)).bind fun rr =>
  if skipWsX rr.2 = [] then resolveNode [] none rr.1 else none

mutual
/-- Strict descendants in document order (`.//` never matches the element
itself). -/
def xmlDescendants : XmlNode → List XmlNode
  | .mk _ _ kids => xmlDescList kids
def xmlDescList : List XmlNode → List XmlNode
  | [] => []
  | k :: r => k :: (xmlDescendants k ++ xmlDescList r)
end

/-- `root.findall(".//" ++ tag, ns)` with the tag already expanded. -/
def findallNs (e : XmlNode) (tag : String) : List XmlNode :=
  (xmlDescendants e).filter (fun n => n.tag = tag)

/-- `el.find(".//" ++ tag, ns)`. -/
def findNs (e : XmlNode) (tag : String) : Option XmlNode :=
  (xmlDescendants e).find? (fun n => n.tag = tag)

/-! ## The timestamp resolver (`_is_google_chat`, `_extract_chat_timestamp`,
`_extract_received_at`)

An uncaught Python exception is `Except.error`; `now` is the value
`datetime.now(timezone.utc)` would return, passed explicitly. -/

inductive PyErr where
  | valueError
  | keyError
deriving DecidableEq

/-- Exact-key lookup in a JSON object (`dict.get`), `none` otherwise. -/
def jxObjGet (j : Jx) (k : String) : Option Jx :=
  match j with
  | .obj kvs => kvs.lookup k
  | _ => none

/-- `MboxMessage._is_google_chat` on the msg_dict `headers` value:
`headers.get("X-Gmail-Labels", [])`, split-and-strip when the value list is
a single string, membership of the literal label `"Chat"`. -/
def is_google_chat (headersJ : Jx) : Bool :=
  let rawLabels : List Jx :=
    match jxObjGet headersJ "X-Gmail-Labels" with
    | some (.arr l) => l
    | _ => []
  match rawLabels with
  | [.str v] => ((splitOnChar ',' v).map pyStrip).contains "Chat"
  | vs => vs.any fun j => match j with | .str s => s = "Chat" | _ => false

/-- The candidate parts `for part in payloads` iterates over: the elements
when the payload is a list; iterating a dict yields its keys (strings) and
iterating a string yields characters, neither of which pass the
`isinstance(part, dict)` guard, so those cases contribute nothing. -/
def chatParts (payloads : Jx) : List Jx :=
  match payloads with
  | .arr xs => xs
  | _ => []

/-- The three strategies on one `cli:message` element, in source order:
`some` is an early return from the loop (a resolved instant or an uncaught
exception), `none` continues with the next element.  The epoch attribute is
taken when *truthy* (present and non-empty); `int()` on a non-integer is an
uncaught `ValueError`, a `delay` element without a `stamp` attribute an
uncaught `KeyError`, and a malformed `stamp` an uncaught `ValueError` from
`strptime`. -/
def chatFromMsgElem (msgEl : XmlNode) : Option (Except PyErr Int) :=
  let tsEpoch := msgEl.attrs.lookup "\x7bgoogle:internal\x7dtime-stamp"
  let epochTruthy : Bool := match tsEpoch with | some s => s ≠ "" | none => false
  if epochTruthy then
    some (match pyInt (tsEpoch.getD "") with
      | some n => .ok n
      | none => .error .valueError)
  else
    match findNs msgEl "\x7bjabber:x:delay\x7dx" with
    | some el =>
      some (match el.attrs.lookup "stamp" with
        | none => .error .keyError
        | some st =>
          match strptimeJabber st with
          | some t => .ok t
          | none => .error .valueError)
    | none =>
      match findNs msgEl "\x7bgoogle:timestamp\x7dtime" with
      | some el =>
        some (match el.attrs.lookup "ms" with
          | none => .error .keyError
          | some msv =>
            match pyInt msv with
            | some n => .ok n
            | none => .error .valueError)
      | none => none

/-- The inner loop over `root.findall(".//cli:message", ns)`. -/
def chatScanMsgs : List XmlNode → Option (Except PyErr Int)
  | [] => none
  | e :: r =>
    match chatFromMsgElem e with
    | some res => some res
    | none => chatScanMsgs r

/-- One candidate part: skipped (`none`) unless it is a dict whose first
`Content-Type` header value starts with `text/xml` and whose payload text
parses as XML; then the message elements are scanned.  In `msg_to_dict`
output a `text/xml` part is always a text leaf, so its payload is a dict
with a string `"text"` entry; the inapplicable shapes default like the
corresponding `dict.get` calls. -/
def chatFromPart (part : Jx) : Option (Except PyErr Int) :=
  match part with
  | .obj kvs =>
    let ctList : List Jx :=
      match kvs.lookup "headers" with
      | some (.obj hkvs) =>
        match hkvs.lookup "Content-Type" with
        | some (.arr l) => l
        | _ => []
      | _ => []
    match ctList with
    | [] => none
    | c0 :: _ =>
      let ct0 := match c0 with | .str s => s | _ => ""
      if strStartsWith ct0 "text/xml" then
        let xmlText :=
          match kvs.lookup "payload" with
          | some (.obj pkvs) =>
            match pkvs.lookup "text" with
            | some (.str t) => t
            | _ => ""
          | _ => ""
        match xmlFromString xmlText with
        | none => none
        | some root => chatScanMsgs (findallNs root "\x7bjabber:client\x7dmessage")
      else none
  | _ => none

/-- The outer loop over the candidate parts; when nothing resolves the
source logs a warning and returns `datetime.now(timezone.utc)` directly. -/
def chatScanParts (now : Int) : List Jx → Except PyErr Int
  | [] => .ok now
  | p :: r =>
    match chatFromPart p with
    | some res => res
    | none => chatScanParts now r

/-- `MboxMessage._extract_chat_timestamp(payloads)`. -/
def extract_chat_timestamp (payloads : Jx) (now : Int) : Except PyErr Int :=
  chatScanParts now (chatParts payloads)

/-- `MboxMessage._extract_received_at(msg_dict)`: the chat branch first
(outside the `try`, so its exceptions propagate), otherwise the `Date`
header parsed permissively, every failure caught and resolved to `now`. -/
def extract_received_at (m : EmailMessage) (d : Jx) (now : Int) :
    Except PyErr Int :=
  let headersJ := (jxObjGet d "headers").getD (.obj [])
  let payloads := (jxObjGet d "payload").getD (.arr [])
  if is_google_chat headersJ then extract_chat_timestamp payloads now
  else
    .ok (match ciGet m.rawHeaders "Date" with
      | none => now
      | some rd =>
        if rd = "" then now
        else
          match parseRfc2822 rd with
          | some t => t
          | none => now)

/-- The resolver as `__post_init__` invokes it, on the message's own
msg_dict. -/
def mboxReceivedAt (m : EmailMessage) (now : Int) : Except PyErr Int :=
  extract_received_at m (msg_to_dict m) now

/-! ## The ingestion store (`mbox_database.py`, `main.py`)

A stored row keeps the inserted tuple `(message_id, as_json, received_at)`;
`docVal` is the JSON value the `as_json` text serializes, carried so that
SQLite's `json_extract` can be modelled structurally (key lookup and array
indexing are invariant under the key sorting the serializer applies).

`create_table` declares `message_id TEXT UNIQUE` and a generated column
`subject ... AS (json_extract("as_json", '$.headers.Subject[0]')) VIRTUAL
NOT NULL`; the insert statement is
`INSERT OR IGNORE INTO emails (message_id, as_json, received_at) VALUES
(?, ?, ?)`, so any row that violates the UNIQUE constraint *or* whose
computed subject is NULL is silently skipped. -/

structure EmailRow where
  messageId : String
  asJson : String
  docVal : Jx
  receivedAt : String

structure EmailDb where
  rows : List EmailRow

/-- The empty store. -/
def emptyDb : EmailDb := ⟨[]⟩

/-- `MboxMessage.as_tuple()` for the insert, with the uncaught exceptions of
`__post_init__` as errors. -/
def as_tuple (m : EmailMessage) (now : Int) : Except PyErr EmailRow :=
  (mboxReceivedAt m now).map fun t =>
    ⟨get_or_generate_message_id m, as_json m, msg_to_dict m, strftimeSqlite t⟩

/-- `json_extract(as_json, '$.headers.Subject[0]')`: the first value of the
`Subject` key of the `headers` object, NULL (`none`) when the path is
absent. -/
def jxSubject (d : Jx) : Option Jx :=
  ((jxObjGet d "headers").bind fun h => jxObjGet h "Subject").bind fun l =>
    match l with
    | .arr (x :: _) => some x
    | _ => none

/-- Does a row with this external identifier exist? -/
def hasMessageId (db : EmailDb) (id : String) : Bool :=
  db.rows.any (fun r => r.messageId == id)

/-- One `INSERT OR IGNORE` under the `create_table` schema: skip on a
`message_id` UNIQUE conflict, skip when the generated NOT NULL `subject`
column computes to NULL, append otherwise. -/
def insertOrIgnore (db : EmailDb) (r : EmailRow) : EmailDb :=
  if hasMessageId db r.messageId then db
  else if (jxSubject r.docVal).isNone then db
  else ⟨db.rows ++ [r]⟩

/-- A batch write (`cursor.executemany` performs the statement row by
row). -/
def ingestRows (db : EmailDb) (rs : List EmailRow) : EmailDb :=
  rs.foldl insertOrIgnore db

/-- `process_mbox` over the raw messages of the mbox: each message is
normalized and inserted; batching does not change the resulting rows, and an
uncaught per-message exception aborts the run with the single enclosing
transaction rolled back (the `with sqlite3.connect` block), which the
`Except.error` models.  `now` is the run's wall clock, held fixed: only
`received_at` values depend on it and no constraint involves them. -/
def process_mbox (msgs : List EmailMessage) (now : Int) (db : EmailDb) :
    Except PyErr EmailDb :=
  match msgs with
  | [] => .ok db
  | m :: rest =>
    match as_tuple m now with
    | .error e => .error e
    | .ok r => process_mbox rest now (insertOrIgnore db r)

/-- Rows stored under an external identifier. -/
def countMessageId (db : EmailDb) (id : String) : Nat :=
  (db.rows.filter (fun r => r.messageId == id)).length

/-! ### Store lemmas -/

theorem insertOrIgnore_of_hasId (db : EmailDb) (r : EmailRow)
    (h : hasMessageId db r.messageId = true) : insertOrIgnore db r = db := by
  simp [insertOrIgnore, h]

theorem insertOrIgnore_of_noSubject (db : EmailDb) (r : EmailRow)
    (h : (jxSubject r.docVal).isNone = true) : insertOrIgnore db r = db := by
  unfold insertOrIgnore
  split
  · rfl
  · simp [h]

theorem hasMessageId_mono (db : EmailDb) (r : EmailRow) (i : String)
    (h : hasMessageId db i = true) :
    hasMessageId (insertOrIgnore db r) i = true := by
  unfold insertOrIgnore
  split
  · exact h
  · split
    · exact h
    · simp only [hasMessageId, List.any_append] at h ⊢
      simp [h]

theorem hasMessageId_or_noSubject (db : EmailDb) (r : EmailRow) :
    hasMessageId (insertOrIgnore db r) r.messageId = true ∨
      (jxSubject r.docVal).isNone = true := by
  unfold insertOrIgnore
  split
  · left; assumption
  · split
    · right; assumption
    · left
      simp [hasMessageId]

theorem process_mbox_hasId_mono (msgs : List EmailMessage) (now : Int)
    (db db' : EmailDb) (i : String)
    (h : process_mbox msgs now db = .ok db')
    (hi : hasMessageId db i = true) : hasMessageId db' i = true := by
  induction msgs generalizing db with
  | nil =>
    simp only [process_mbox] at h
    cases h
    exact hi
  | cons m rest ih =>
    simp only [process_mbox] at h
    cases hr : as_tuple m now with
    | error e => rw [hr] at h; cases h
    | ok r =>
      rw [hr] at h
      exact ih _ h (hasMessageId_mono _ _ _ hi)

theorem insertOrIgnore_absorb (db : EmailDb) (r : EmailRow)
    (h : hasMessageId db r.messageId = true ∨
      (jxSubject r.docVal).isNone = true) : insertOrIgnore db r = db := by
  rcases h with h | h
  · exact insertOrIgnore_of_hasId _ _ h
  · exact insertOrIgnore_of_noSubject _ _ h

theorem process_mbox_reingest (msgs : List EmailMessage) (now : Int)
    (db db' : EmailDb) (h : process_mbox msgs now db = .ok db') :
    process_mbox msgs now db' = .ok db' := by
  induction msgs generalizing db with
  | nil =>
    simp only [process_mbox] at h ⊢
  | cons m rest ih =>
    simp only [process_mbox] at h ⊢
    cases hr : as_tuple m now with
    | error e => rw [hr] at h; simp at h
    | ok r =>
      rw [hr] at h
      simp only at h
      have habs : insertOrIgnore db' r = db' := by
        rcases hasMessageId_or_noSubject db r with hcase | hcase
        · exact insertOrIgnore_absorb _ _
            (Or.inl (process_mbox_hasId_mono _ _ _ _ _ h hcase))
        · exact insertOrIgnore_absorb _ _ (Or.inr hcase)
      show process_mbox rest now (insertOrIgnore db' r) = Except.ok db'
      rw [habs]
      exact ih _ h

/-! ## Document decomposition -/

/-- The document a message normalizes to, split into its two components. -/
theorem msg_to_dict_decomp (m : EmailMessage) :
    msg_to_dict m =
      Jx.obj [("headers", headersToJx (groupedHeaders m)),
              ("payload", payloadToJx m.body)] := by
  cases m
  rfl

/-! ### Digest shape (for the identifier invariant) -/

theorem shaCompress_length (h0 block : List Nat) :
    (shaCompress h0 block).length = 8 := by
  simp [shaCompress]

theorem foldl_shaCompress_length (blocks : List (List Nat)) (h0 : List Nat)
    (hh : h0.length = 8) : (blocks.foldl shaCompress h0).length = 8 := by
  induction blocks generalizing h0 with
  | nil => simpa
  | cons b bs ih => exact ih _ (shaCompress_length h0 b)

theorem sha256Words_length (msg : List Nat) : (sha256Words msg).length = 8 :=
  foldl_shaCompress_length _ _ (by simp [shaInit])

theorem hexcat_length (ws : List Nat) :
    ((ws.map (toHexFixed 8)).foldr (· ++ ·) []).length = 8 * ws.length := by
  induction ws with
  | nil => rfl
  | cons w t ih =>
    simp only [List.map_cons, List.foldr_cons, List.length_append,
      toHexFixed_length, ih, List.length_cons]
    omega

theorem hexcat_all_hex (ws : List Nat) :
    ∀ c ∈ (ws.map (toHexFixed 8)).foldr (· ++ ·) [], isHexLowerChar c = true := by
  induction ws with
  | nil => intro c hc; simp at hc
  | cons w t ih =>
    intro c hc
    simp only [List.map_cons, List.foldr_cons, List.mem_append] at hc
    rcases hc with hc | hc
    · exact toHexFixed_all_hex 8 w c hc
    · exact ih c hc

theorem sha256Hex_length (msg : List Nat) : (sha256Hex msg).length = 64 := by
  show ((( sha256Words msg).map (toHexFixed 8)).foldr (· ++ ·) []).length = 64
  rw [hexcat_length, sha256Words_length]

theorem sha256Hex_all_hex (msg : List Nat) :
    ∀ c ∈ (sha256Hex msg).data, isHexLowerChar c = true :=
  hexcat_all_hex (sha256Words msg)

theorem sha256Hex_ne_empty (msg : List Nat) : sha256Hex msg ≠ "" := by
  intro h
  have := sha256Hex_length msg
  rw [h] at this
  simp at this

/-! ## Concrete messages used by the claims -/

/-- The end-to-end single-part plain-text message of the spec. -/
def msgC3 : EmailMessage :=
  .mk [("Message-ID", "<abc@x>"), ("Date", "Mon, 1 Jan 2024 12:00:00 +0000"),
       ("Subject", "Hi")]
    (.leaf "text/plain" none (utf8Encode "hello"))

/-- Chat transcript whose message element carries a non-integer
epoch-milliseconds attribute. -/
def chatXmlBad : String :=
  "<c:conversation xmlns:c=\"google:archive:conversation\" xmlns:cli=\"jabber:client\" xmlns:g=\"google:internal\"><cli:message g:time-stamp=\"oops\"/></c:conversation>"

/-- A chat-labelled message carrying that transcript as a `text/xml` part. -/
def msgC2 : EmailMessage :=
  .mk [("X-Gmail-Labels", "Chat"), ("Message-ID", "<chat@x>"),
       ("Subject", "chat")]
    (.multi [.mk [("Content-Type", "text/xml; charset=utf-8")]
      (.leaf "text/xml" (some "utf-8") (utf8Encode chatXmlBad))])

/-- A chat-labelled message with no XML part but a parseable `Date`
header. -/
def msgC6 : EmailMessage :=
  .mk [("X-Gmail-Labels", "Chat"), ("Date", "Mon, 1 Jan 2024 12:00:00 +0000"),
       ("Subject", "chat")]
    (.leaf "text/plain" none (utf8Encode "hi"))

/-- A well-formed message without any `Subject` header. -/
def msgC4 : EmailMessage :=
  .mk [("Message-ID", "<nosubj@x>"), ("Date", "Mon, 1 Jan 2024 12:00:00 +0000")]
    (.leaf "text/plain" none (utf8Encode "body"))

/-- Two distinct messages with the same explicit `Message-ID` and no
`Subject` header. -/
def msgC5a : EmailMessage :=
  .mk [("Message-ID", "<dup@x>")] (.leaf "text/plain" none (utf8Encode "one"))

/-- Second message of the duplicate pair. -/
def msgC5b : EmailMessage :=
  .mk [("Message-ID", "<dup@x>")] (.leaf "text/plain" none (utf8Encode "two"))

/-- A message with no `Message-ID` header. -/
def msgC7 : EmailMessage :=
  .mk [("Subject", "x")] (.leaf "text/plain" none (utf8Encode "hi"))

/-- Three distinguishable subparts. -/
def partA : EmailMessage :=
  .mk [("Content-Type", "text/plain")] (.leaf "text/plain" none (utf8Encode "first"))

/-- Second subpart. -/
def partB : EmailMessage :=
  .mk [("Content-Type", "text/html")] (.leaf "text/html" none (utf8Encode "second"))

/-- Third subpart, binary. -/
def partC : EmailMessage :=
  .mk [("Content-Type", "application/pdf")] (.leaf "application/pdf" none [1, 2, 3])

/-- A three-part multipart message. -/
def msgC9 : EmailMessage :=
  .mk [("Message-ID", "<mp@x>"), ("Subject", "multi"),
       ("Content-Type", "multipart/mixed")]
    (.multi [partA, partB, partC])

/-- Two raw messages whose header interleaving differs but whose grouped
headers (and payloads) agree. -/
def msgC1a : EmailMessage :=
  .mk [("A", "1"), ("B", "2"), ("A", "3"), ("Message-ID", "<d@e>"),
       ("Subject", "s")]
    (.leaf "text/plain" none (utf8Encode "t"))

/-- The reordered twin of `msgC1a`. -/
def msgC1b : EmailMessage :=
  .mk [("A", "1"), ("A", "3"), ("B", "2"), ("Message-ID", "<d@e>"),
       ("Subject", "s")]
    (.leaf "text/plain" none (utf8Encode "t"))

/-! ## Claim theorems -/

theorem msgsToDicts_eq_map (cs : List EmailMessage) :
    msgsToDicts cs = cs.map msg_to_dict := by
  induction cs with
  | nil => rfl
  | cons m r ih => simp [msgsToDicts, ih]

/-- C8: a non-multipart message whose content type starts with `text/` and
whose declared charset label is unknown to the codec registry normalizes
without raising — `payloadToJx` is total — to a text leaf whose text is the
UTF-8-with-replacement decoding of the payload bytes. -/
theorem claim8_charset_fallback (ct : String) (cs : Option String)
    (data : List Nat) (hct : strStartsWith ct "text/" = true)
    (hcs : lookupCodec (cs.getD "utf-8") = none) :
    payloadToJx (.leaf ct cs data) =
      Jx.obj [("type", .str "text"), ("content_type", .str ct),
              ("charset", .str (cs.getD "utf-8")),
              ("text", .str (String.mk (utf8DecodeReplace data)))] := by
  simp [payloadToJx, hct, hcs]

/-- Witness for C8 at a concrete unknown charset, with the undecodable byte
`0xff` replaced by U+FFFD. -/
theorem claim8_witness :
    lookupCodec ((some "x-unknown").getD "utf-8") = none ∧
    strStartsWith "text/plain" "text/" = true ∧
    payloadToJx (.leaf "text/plain" (some "x-unknown") [104, 255]) =
      Jx.obj [("type", .str "text"), ("content_type", .str "text/plain"),
              ("charset", .str "x-unknown"),
              ("text", .str (String.mk (utf8DecodeReplace [104, 255])))] ∧
    String.mk (utf8DecodeReplace [104, 255]) = "h�" :=
  ⟨rfl, rfl,
   claim8_charset_fallback "text/plain" (some "x-unknown") [104, 255] rfl rfl,
   rfl⟩

/-- C9: a multipart message normalizes to a payload with one child document
per subpart, in source order: the payload array is exactly the map of
normalization over the children, and its `i`-th entry is the normalization
of the `i`-th subpart. -/
theorem claim9_multipart_order (cs : List EmailMessage) (i : Nat)
    (hi : i < cs.length) :
    payloadToJx (.multi cs) = Jx.arr (cs.map msg_to_dict) ∧
      (cs.map msg_to_dict)[i]? = some (msg_to_dict cs[i]) := by
  constructor
  · simp [payloadToJx, msgsToDicts_eq_map]
  · simp [List.getElem?_map, List.getElem?_eq_getElem hi]

/-- Witness for C9 on the three-part message, middle child. -/
theorem claim9_witness :
    (1 : Nat) < [partA, partB, partC].length ∧
    (payloadToJx (.multi [partA, partB, partC]) =
        Jx.arr ([partA, partB, partC].map msg_to_dict) ∧
      ([partA, partB, partC].map msg_to_dict)[1]? =
        some (msg_to_dict [partA, partB, partC][1])) :=
  ⟨by decide, claim9_multipart_order [partA, partB, partC] 1 (by decide)⟩

/-- C10: the resolved external identifier is never the empty string — it is
either the non-empty stripped `Message-ID` value, or a 64-character
lowercase-hex SHA-256 digest. -/
theorem claim10_identifier_shape (m : EmailMessage) :
    get_or_generate_message_id m ≠ "" ∧
      ((pyStrip ((ciGet m.rawHeaders "Message-ID").getD "") ≠ "" ∧
          get_or_generate_message_id m =
            pyStrip ((ciGet m.rawHeaders "Message-ID").getD "")) ∨
        ((get_or_generate_message_id m).length = 64 ∧
          ∀ c ∈ (get_or_generate_message_id m).data, isHexLowerChar c = true)) := by
  unfold get_or_generate_message_id
  by_cases h : pyStrip ((ciGet m.rawHeaders "Message-ID").getD "") = ""
  · simp only [h, if_pos rfl]
    refine ⟨sha256Hex_ne_empty _, Or.inr ⟨sha256Hex_length _, sha256Hex_all_hex _⟩⟩
  · simp only [if_neg h]
    exact ⟨h, Or.inl ⟨h, trivial⟩⟩

/-- A message whose raw `Message-ID` value is the RFC 2047 spelling of
`abc`. -/
def msgC1enc : EmailMessage :=
  .mk [("Message-ID", "=?utf-8?q?abc?="), ("Subject", "s")]
    (.leaf "text/plain" none (utf8Encode "t"))

/-- Its twin with the plain spelling. -/
def msgC1plain : EmailMessage :=
  .mk [("Message-ID", "abc"), ("Subject", "s")]
    (.leaf "text/plain" none (utf8Encode "t"))

/-- C1 fails on the code: the Document holds *decoded* header values while
the identifier reads the *raw* `Message-ID` header, so two messages whose
raw `Message-ID` values are the encoded-word spelling `=?utf-8?q?abc?=` and
the plain spelling `abc` normalize to identical Documents — identical
header order, values, payload tree and serialized text — yet receive
different identifiers. -/
theorem claim1_counterexample :
    msg_to_dict msgC1enc = msg_to_dict msgC1plain ∧
    as_json msgC1enc = as_json msgC1plain ∧
    get_or_generate_message_id msgC1enc = "=?utf-8?q?abc?=" ∧
    get_or_generate_message_id msgC1plain = "abc" ∧
    get_or_generate_message_id msgC1enc ≠ get_or_generate_message_id msgC1plain :=
  ⟨rfl, rfl, rfl, rfl, by decide⟩

/-- C1 amended: repeated runs on byte-identical input are the same function
application, and the serialized output is a function of the Document
content alone (grouped decoded headers — order and values — and the payload
tree); the identifier is a function of the Document content together with
the raw `Message-ID` header value it is read from. -/
theorem claim1_serialization_determinism (m1 m2 : EmailMessage)
    (hh : groupedHeaders m1 = groupedHeaders m2)
    (hp : payloadToJx m1.body = payloadToJx m2.body)
    (hid : ciGet m1.rawHeaders "Message-ID" = ciGet m2.rawHeaders "Message-ID") :
    as_json m1 = as_json m2 ∧
      get_or_generate_message_id m1 = get_or_generate_message_id m2 := by
  have hdict : msg_to_dict m1 = msg_to_dict m2 := by
    rw [msg_to_dict_decomp, msg_to_dict_decomp, hh, hp]
  refine ⟨?_, ?_⟩
  · unfold as_json
    rw [hdict]
  · unfold get_or_generate_message_id
    rw [hid, hdict]

/-- Witness for C1: two raw messages with different header interleavings
but identical grouped headers, payload and raw `Message-ID` get identical
serialization and identifier. -/
theorem claim1_witness :
    groupedHeaders msgC1a = groupedHeaders msgC1b ∧
    payloadToJx msgC1a.body = payloadToJx msgC1b.body ∧
    ciGet msgC1a.rawHeaders "Message-ID" = ciGet msgC1b.rawHeaders "Message-ID" ∧
    (as_json msgC1a = as_json msgC1b ∧
      get_or_generate_message_id msgC1a = get_or_generate_message_id msgC1b) :=
  ⟨rfl, rfl, rfl, claim1_serialization_determinism msgC1a msgC1b rfl rfl rfl⟩

/-- C2 fails on the code: on a chat-labelled message whose XML message
element carries the non-integer epoch attribute `"oops"`, the resolver
raises an uncaught `ValueError` (from `int(ts_epoch)`) instead of returning
an instant, for every wall-clock value. -/
theorem claim2_resolver_raises (now : Int) :
    mboxReceivedAt msgC2 now = .error .valueError := rfl

/-- C4 fails on the code: a message with no `Subject` header normalizes to a
document whose `$.headers.Subject[0]` extraction is NULL, so the generated
NOT NULL `subject` column makes `INSERT OR IGNORE` silently skip the row —
ingesting the message alone stores nothing. -/
theorem claim4_subjectless_dropped :
    (∀ now : Int, process_mbox [msgC4] now emptyDb = .ok emptyDb) ∧
    jxSubject (msg_to_dict msgC4) = none ∧
    ciGet msgC4.rawHeaders "Subject" = none :=
  ⟨fun _ => rfl, rfl, rfl⟩

/-- C5's "exactly one stored row" fails on the code: two messages with the
same explicit `Message-ID` but no `Subject` header are both skipped by the
NOT NULL generated column, leaving zero rows rather than one. -/
theorem claim5_counterexample :
    get_or_generate_message_id msgC5a = "<dup@x>" ∧
    get_or_generate_message_id msgC5b = "<dup@x>" ∧
    process_mbox [msgC5a, msgC5b] 0 emptyDb = .ok emptyDb ∧
    countMessageId emptyDb "<dup@x>" = 0 :=
  ⟨rfl, rfl, rfl, rfl⟩

/-- C5 amended: re-ingesting input that already went through leaves the
store unchanged; a row whose external identifier is already present is
silently skipped (never duplicated, never an error — insertion is a total
function); and two rows with the same explicit identifier yield exactly one
stored row *provided* the message carries a `Subject` header (without one,
zero rows are stored — see the counterexample). -/
theorem claim5_idempotent_dedup :
    (∀ (msgs : List EmailMessage) (now : Int) (db db' : EmailDb),
        process_mbox msgs now db = .ok db' →
        process_mbox msgs now db' = .ok db') ∧
    (∀ (db : EmailDb) (r : EmailRow), hasMessageId db r.messageId = true →
        insertOrIgnore db r = db) ∧
    (∀ r1 r2 : EmailRow, r1.messageId = r2.messageId →
        (jxSubject r1.docVal).isSome = true →
        countMessageId (ingestRows emptyDb [r1, r2]) r1.messageId = 1) := by
  refine ⟨process_mbox_reingest, insertOrIgnore_of_hasId, ?_⟩
  intro r1 r2 h12 hs
  have hj : (jxSubject r1.docVal).isNone = false := by
    cases hjj : jxSubject r1.docVal
    · rw [hjj] at hs
      simp at hs
    · simp
  simp [ingestRows, insertOrIgnore, hasMessageId, emptyDb, hj, ← h12,
    countMessageId]

/-- The row the end-to-end message stores. -/
def rowC3 : EmailRow :=
  ⟨"<abc@x>", as_json msgC3, msg_to_dict msgC3, "2024-01-01 12:00:00"⟩

/-- The store after ingesting the end-to-end message alone. -/
def dbC3 : EmailDb := ⟨[rowC3]⟩

/-- Witness for C5 at concrete inputs: one ingested message, re-ingested;
a duplicate-identifier insert skipped; the dedup count. -/
theorem claim5_witness :
    process_mbox [msgC3] 0 emptyDb = .ok dbC3 ∧
    process_mbox [msgC3] 0 dbC3 = .ok dbC3 ∧
    hasMessageId dbC3 rowC3.messageId = true ∧
    insertOrIgnore dbC3 rowC3 = dbC3 ∧
    (jxSubject rowC3.docVal).isSome = true ∧
    countMessageId (ingestRows emptyDb [rowC3, rowC3]) rowC3.messageId = 1 := by
  refine ⟨rfl, claim5_idempotent_dedup.1 [msgC3] 0 emptyDb dbC3 rfl, rfl,
    claim5_idempotent_dedup.2.1 dbC3 rowC3 rfl, rfl,
    claim5_idempotent_dedup.2.2 rowC3 rowC3 rfl rfl⟩

/-- C6 fails on the code: for a chat-labelled message where no chat strategy
resolves (no XML part) but whose `Date` header is present and parses, the
resolver returns the wall-clock value (here 999) rather than the Date's UTC
instant 1704110400000. -/
theorem claim6_counterexample :
    mboxReceivedAt msgC6 999 = .ok 999 ∧
    ciGet msgC6.rawHeaders "Date" = some "Mon, 1 Jan 2024 12:00:00 +0000" ∧
    parseRfc2822 "Mon, 1 Jan 2024 12:00:00 +0000" = some 1704110400000 ∧
    (999 : Int) ≠ 1704110400000 :=
  ⟨rfl, rfl, rfl, by decide⟩

/-- C6 amended: once chat is detected the resolver returns whatever the chat
extractor produces and never consults the `Date` header; and when no payload
part is an applicable XML candidate, the extractor returns the current
wall-clock time directly. -/
theorem claim6_chat_never_consults_date :
    (∀ (m : EmailMessage) (d : Jx) (now : Int),
        is_google_chat ((jxObjGet d "headers").getD (.obj [])) = true →
        extract_received_at m d now =
          extract_chat_timestamp ((jxObjGet d "payload").getD (.arr [])) now) ∧
    (∀ (now : Int) (ps : List Jx), (∀ p ∈ ps, chatFromPart p = none) →
        chatScanParts now ps = .ok now) := by
  constructor
  · intro m d now h
    simp only [extract_received_at, h, if_pos]
  · intro now ps h
    induction ps with
    | nil => rfl
    | cons p r ih =>
      have hp := h p (List.mem_cons_self _ _)
      simp only [chatScanParts, hp]
      exact ih fun q hq => h q (List.mem_cons_of_mem _ hq)

/-- Witness for C6 at the concrete chat message with a parseable `Date`. -/
theorem claim6_witness :
    is_google_chat ((jxObjGet (msg_to_dict msgC6) "headers").getD (.obj [])) =
      true ∧
    extract_received_at msgC6 (msg_to_dict msgC6) 999 =
      extract_chat_timestamp
        ((jxObjGet (msg_to_dict msgC6) "payload").getD (.arr [])) 999 ∧
    chatScanParts 999 [] = .ok 999 :=
  ⟨rfl, claim6_chat_never_consults_date.1 msgC6 (msg_to_dict msgC6) 999 rfl,
    claim6_chat_never_consults_date.2 999 []
      (fun p hp => absurd hp (List.not_mem_nil p))⟩

/-- C7 fails on the code: the fallback identifier is the SHA-256 of the
*compact, non-ASCII-preserving* serialization (`sort_keys=True,
ensure_ascii=False`), which differs from the indented ASCII-escaped
serialization the store persists — hashing the persisted text gives a
different digest. -/
theorem claim7_counterexample :
    ciGet msgC7.rawHeaders "Message-ID" = none ∧
    get_or_generate_message_id msgC7 =
      sha256Hex (utf8Encode (dumpsForHash (msg_to_dict msgC7))) ∧
    get_or_generate_message_id msgC7 ≠ sha256Hex (utf8Encode (as_json msgC7)) :=
  ⟨rfl, rfl, by decide⟩

/-- C7 amended: for a message whose `Message-ID` is absent or strips to
empty, the fallback identifier is the hex SHA-256 digest of the
deterministic *compact* `sort_keys=True, ensure_ascii=False` serialization
of the full document (not of the indented serialization the store
persists). -/
theorem claim7_fallback_digest (m : EmailMessage)
    (h : pyStrip ((ciGet m.rawHeaders "Message-ID").getD "") = "") :
    get_or_generate_message_id m =
      sha256Hex (utf8Encode (dumpsForHash (msg_to_dict m))) := by
  unfold get_or_generate_message_id
  simp [h, hash_dict]

/-- Witness for C7 at the concrete message missing `Message-ID`. -/
theorem claim7_witness :
    pyStrip ((ciGet msgC7.rawHeaders "Message-ID").getD "") = "" ∧
    get_or_generate_message_id msgC7 =
      sha256Hex (utf8Encode (dumpsForHash (msg_to_dict msgC7))) :=
  ⟨rfl, claim7_fallback_digest msgC7 rfl⟩

/-- C3's `message_id` fails on the code: `.strip()` removes only
whitespace, so the stored identifier keeps the angle brackets. -/
theorem claim3_counterexample :
    get_or_generate_message_id msgC3 = "<abc@x>" ∧ "<abc@x>" ≠ "abc@x" :=
  ⟨rfl, by decide⟩

/-- C3 amended: the end-to-end message, ingested alone, stores exactly one
row with `message_id = "<abc@x>"` (brackets kept), `received_at =
"2024-01-01 12:00:00"`, subject extraction `"Hi"`, and a document whose
payload is a single text leaf decoding to `"hello"`. -/
theorem claim3_end_to_end :
    process_mbox [msgC3] 0 emptyDb = .ok dbC3 ∧
    rowC3.messageId = "<abc@x>" ∧
    rowC3.receivedAt = "2024-01-01 12:00:00" ∧
    jxSubject rowC3.docVal = some (.str "Hi") ∧
    jxObjGet rowC3.docVal "payload" =
      some (Jx.obj [("type", .str "text"), ("content_type", .str "text/plain"),
                    ("charset", .str "utf-8"), ("text", .str "hello")]) :=
  ⟨rfl, rfl, rfl, rfl, rfl⟩
